import Mathlib

/-!
Shallow embedding of the completion/synchronization core of
`openssh-sftp-client` (files `src/awaitable.rs` and `src/connection.rs`),
together with theorems settling the specification's claims about it.

`Awaitable<Input, Output>` is a reference-counted, mutex-guarded tagged
union `InnerState`; we embed `InnerState` directly and each method as a
pure function on it.  A method call that panics is embedded as returning
`none`, keeping the panic branches visible.  The `SharedData` signaling
fields (`requests_sent`, `notify`) are embedded as a labelled transition
system whose steps are the atomic operations the code performs, extended
with ghost counters recording the call history.
-/

namespace SftpClient

/-- Wakers are opaque callbacks; only their identity matters here, so they
are represented by numeric identities. -/
abbrev Waker := Nat

/-- `enum InnerState<Input, Output>` from `src/awaitable.rs`:
either `Ongoing(Option<Input>, Option<Waker>)` or `Done(Output)`. -/
inductive InnerState (Input Output : Type) where
  | Ongoing (input : Option Input) (stored_waker : Option Waker)
  | Done (output : Output)
  deriving DecidableEq, Repr

namespace Awaitable

variable {Input Output : Type}

/-- `Awaitable::new(input)`: creates an `Ongoing` cell holding the optional
pre-supplied input and no waker. -/
def new (input : Option Input) : InnerState Input Output :=
  .Ongoing input none

/-- `Awaitable::install_waker(waker)`: under the lock, if the state is
`Ongoing` with a waker already stored it panics (embedded as `none`);
if `Ongoing` without a stored waker it stores `waker` and returns `false`;
if `Done` it returns `true` leaving the state unchanged.  The result pairs
the returned boolean with the updated state. -/
def install_waker (s : InnerState Input Output) (waker : Waker) :
    Option (Bool × InnerState Input Output) :=
  match s with
  | .Ongoing input stored_waker =>
    match stored_waker with
    | some _ => none
    | none => some (false, .Ongoing input (some waker))
  | .Done output => some (true, .Done output)

/-- `Awaitable::take_input()`: under the lock, `Ongoing(input, w)` yields
`input.take()` — the old input, with the state's input slot emptied;
`Done` yields nothing and is unchanged. -/
def take_input (s : InnerState Input Output) :
    Option Input × InnerState Input Output :=
  match s with
  | .Ongoing input stored_waker => (input, .Ongoing none stored_waker)
  | .Done output => (none, .Done output)

/-- `Awaitable::done(value)`: replaces the state wholesale with
`Done(value)`; if the previous state was already `Done` it panics
(embedded as `none`), otherwise it yields the previously stored waker
(to be woken after the lock is released and `self` dropped) together
with the new state. -/
def done (s : InnerState Input Output) (value : Output) :
    Option (Option Waker × InnerState Input Output) :=
  match s with
  | .Done _ => none
  | .Ongoing _input stored_waker => some (stored_waker, .Done value)

/-- `Awaitable::get_value()`: after unwrapping the shared handle (the
spin-wait only waits out a producer that is still dropping its clone),
returns `Some(value)` when the state is `Done(value)` and `None` when the
state is still `Ongoing`. -/
def get_value (s : InnerState Input Output) : Option Output :=
  match s with
  | .Done value => some value
  | .Ongoing _ _ => none

/-- One method call on a cell, used to quantify over every sequence of
calls that may follow an initial one. -/
inductive CellOp (Input Output : Type) where
  | installWaker (waker : Waker)
  | takeInput
  | doneOp (value : Output)
  deriving DecidableEq, Repr

/-- The state transition a single method call performs; `none` when the
call panics (so no later call can run). -/
def applyOp (op : CellOp Input Output) (s : InnerState Input Output) :
    Option (InnerState Input Output) :=
  match op with
  | .installWaker w => (install_waker s w).map Prod.snd
  | .takeInput => some (take_input s).2
  | .doneOp v => (done s v).map Prod.snd

/-- Runs a sequence of method calls, stopping (with `none`) at the first
panic. -/
def runOps (ops : List (CellOp Input Output)) (s : InnerState Input Output) :
    Option (InnerState Input Output) :=
  match ops with
  | [] => some s
  | op :: rest =>
    match applyOp op s with
    | none => none
    | some s' => runOps rest s'

/-- The pre-supplied input is gone from the state: either it was taken
(or absent), or the state is `Done` (which holds no input slot at all). -/
def inputGone (s : InnerState Input Output) : Prop :=
  match s with
  | .Ongoing (some _) _ => False
  | .Ongoing none _ => True
  | .Done _ => True

/-- The observable effects of `Awaitable::done`, in the order the source
performs them: acquire the internal lock, `mem::replace` the state with
`Done(value)`, release the lock (end of the inner block), `drop(self)`,
and finally — only if a waker had been stored — wake it. -/
inductive DoneEvent where
  | lockAcquired
  | stateReplaced
  | lockReleased
  | selfDropped
  | wakerWoken
  deriving DecidableEq, Repr

/-- Event trace of one (non-panicking) `Awaitable::done` call, keyed by
whether a waker had been stored in the cell. -/
def doneEvents (had_waker : Bool) : List DoneEvent :=
  [.lockAcquired, .stateReplaced, .lockReleased, .selfDropped] ++
    (if had_waker then [.wakerWoken] else [])

end Awaitable

/-! ## `src/connection.rs`: the `SharedData` signaling fields

`requests_sent` is an atomic counter and `notify` a single-slot wakeup.
`notify_new_packet_event` performs `requests_sent.fetch_add(1)` then
`notify.notify_one()`; `wait_for_new_request` loops: swap the counter to
`0`, break with the swapped value if positive, otherwise await the next
notification.  Each atomic access is one step of a labelled transition
system; the claims quantify over interleavings in which every
`notify_new_packet_event` increments the counter by exactly one, so the
counter is carried as a `Nat`.  Ghost fields record the call history. -/

/-- Signaling state of `SharedData` plus ghost history: `requests_sent`
is the counter; `signals` counts `notify_new_packet_event` calls made;
`returned` sums every count `wait_for_new_request` has returned. -/
structure SignalState where
  requests_sent : Nat
  signals : Nat
  returned : Nat
  deriving DecidableEq, Repr

/-- Labels of the atomic steps of the signaling protocol. -/
inductive SignalEvent where
  | notifyNewPacket
  | waitReturn (cnt : Nat)
  | waitObservedZero
  deriving DecidableEq, Repr

/-- Atomic steps:
* `notify` — `notify_new_packet_event`: `requests_sent.fetch_add(1)`
  (the paired `notify_one` only causes a wakeup, i.e. enables a later
  `wait` step to re-run its swap);
* `waitSwapPos` — a `wait_for_new_request` iteration whose
  `requests_sent.swap(0)` observes a positive count and breaks with it,
  which is recorded in the ghost `returned` sum;
* `waitSwapZero` — an iteration whose swap observes `0` (leaving the
  counter `0`) and goes back to awaiting the notification. -/
inductive SignalStep : SignalState → SignalEvent → SignalState → Prop where
  | notify (s : SignalState) :
      SignalStep s .notifyNewPacket
        ⟨s.requests_sent + 1, s.signals + 1, s.returned⟩
  | waitSwapPos (s : SignalState) (h : 0 < s.requests_sent) :
      SignalStep s (.waitReturn s.requests_sent)
        ⟨0, s.signals, s.returned + s.requests_sent⟩
  | waitSwapZero (s : SignalState) (h : s.requests_sent = 0) :
      SignalStep s .waitObservedZero s

/-- States reachable from the initial state (`AtomicUsize::new(0)`, no
calls made yet) by any interleaving of the atomic steps. -/
inductive SignalReachable : SignalState → Prop where
  | init : SignalReachable ⟨0, 0, 0⟩
  | step {s : SignalState} {e : SignalEvent} {s' : SignalState} :
      SignalReachable s → SignalStep s e s' → SignalReachable s'

/-- The whole `wait_for_new_request` loop as a function of the counter
value its first `swap(0)` observes and the counter values observed at
each re-check after a notification; `none` means no further notification
arrives and the call stays suspended. -/
def wait_for_new_request (cnt : Nat) (wakeups : List Nat) : Option Nat :=
  if 0 < cnt then some cnt
  else
    match wakeups with
    | [] => none
    | c :: rest => wait_for_new_request c rest

/-! ## `src/connection.rs`: `connect`

`connect` builds the `SharedData` (writer mutex, response table, notify,
`requests_sent = 0`), wraps it in the two ends, sends the client hello
carrying `SSH2_FILEXFER_VERSION`, validates the server's version, and
only then returns the pair of ends.  `WriteEnd::send_hello` and
`ReadEnd::receive_server_version` are repository code that is not under
`src/`, so they are modelled from the spec below; the writer, the
response table and the reader are external collaborators and are elided
from the embedded state. -/

/-- `SSH2_FILEXFER_VERSION` from the external `openssh-sftp-protocol`
crate: the protocol version the client announces (SFTP version 3). -/
def SSH2_FILEXFER_VERSION : Nat := 3

/-- Errors surfaced by the handshake. -/
inductive ConnError where
  | sendHelloFailed
  | readFailed
  | versionMismatch (expected actual : Nat)
  deriving DecidableEq, Repr

/-- The signaling fields of the freshly built `SharedData`. -/
structure SharedData where
  requests_sent : Nat
  deriving DecidableEq, Repr

/-- `WriteEnd`, holding its share of the `SharedData`. -/
structure WriteEnd where
  shared : SharedData
  deriving DecidableEq, Repr

/-- `ReadEnd`, holding its share of the `SharedData`. -/
structure ReadEnd where
  shared : SharedData
  deriving DecidableEq, Repr

/-- Modelled from the spec: `ReadEnd::receive_server_version` is not under
`src/`.  Per the spec it reads the server's version-announcement packet
(`none` models a transport failure before a version arrives) and fails
with a typed error unless the reported version matches exactly. -/
def receive_server_version (version : Nat) (server_reply : Option Nat) :
    Except ConnError Unit :=
  match server_reply with
  | none => .error .readFailed
  | some v => if v = version then .ok () else .error (.versionMismatch version v)

/-- `connect(reader, writer)`: builds the shared state and both ends,
sends the hello (`WriteEnd::send_hello` is not under `src/`; its outcome
is the parameter `hello_result`, modelled from the spec as succeeding or
failing with a typed error), validates the server version, and returns
the ends only if both steps succeeded (`?` propagates either failure). -/
def connect (hello_result : Except ConnError Unit) (server_reply : Option Nat) :
    Except ConnError (WriteEnd × ReadEnd) :=
  let shared : SharedData := { requests_sent := 0 }
  let write_end : WriteEnd := ⟨shared⟩
  let read_end : ReadEnd := ⟨shared⟩
  match hello_result with
  | .error e => .error e
  | .ok _ =>
    match receive_server_version SSH2_FILEXFER_VERSION server_reply with
    | .error e => .error e
    | .ok _ => .ok (write_end, read_end)

/-! ## Theorems -/

/-- C2: completing a cell with `done v` leaves it in a state from which
`get_value` returns exactly `some v` — never a different or absent
value. -/
theorem get_value_after_done {Input Output : Type}
    (s : InnerState Input Output) (v : Output)
    (r : Option Waker × InnerState Input Output)
    (h : Awaitable.done s v = some r) :
    Awaitable.get_value r.2 = some v := by
  cases s with
  | Done o => simp [Awaitable.done] at h
  | Ongoing input w =>
    simp only [Awaitable.done, Option.some.injEq] at h
    subst h
    rfl

/-- Witness for C2 at a concrete cell. -/
theorem get_value_after_done_witness :
    Awaitable.get_value
      (((none, InnerState.Done 42) : Option Waker × InnerState Nat Nat).2) =
      some 42 :=
  get_value_after_done (Awaitable.new (some 7)) 42 (none, InnerState.Done 42) rfl

/-- C3: `install_waker` on a still-`Ongoing` cell with no waker yet
installed returns `false` and stores the waker; `install_waker` on any
cell on which `done` has been called returns `true` (so the caller must
retrieve the value immediately instead of suspending), leaving the state
unchanged. -/
theorem install_waker_false_before_done_true_after {Input Output : Type}
    (input : Option Input) (w : Waker)
    (s : InnerState Input Output) (v : Output)
    (r : Option Waker × InnerState Input Output)
    (h : Awaitable.done s v = some r) :
    Awaitable.install_waker (.Ongoing input none : InnerState Input Output) w =
      some (false, .Ongoing input (some w)) ∧
    Awaitable.install_waker r.2 w = some (true, r.2) := by
  refine ⟨rfl, ?_⟩
  cases s with
  | Done o => simp [Awaitable.done] at h
  | Ongoing i sw =>
    simp only [Awaitable.done, Option.some.injEq] at h
    subst h
    rfl

/-- Witness for C3 at a concrete cell. -/
theorem install_waker_false_before_done_true_after_witness :
    Awaitable.install_waker (.Ongoing (some 7) none : InnerState Nat Nat) 1 =
      some (false, .Ongoing (some 7) (some 1)) ∧
    Awaitable.install_waker
        (((none, InnerState.Done 5) : Option Waker × InnerState Nat Nat).2) 1 =
      some (true, ((none, InnerState.Done 5) :
        Option Waker × InnerState Nat Nat).2) :=
  install_waker_false_before_done_true_after (some 7) 1
    (Awaitable.new (some 7)) 5 (none, InnerState.Done 5) rfl

/-- C9: a second `install_waker` on a cell that is still `Ongoing` and
already holds a stored waker panics; under the single-waiter
precondition — the cell holds no stored waker — the panic branch is
unreachable: `install_waker` always returns a value. -/
theorem install_waker_twice_panics {Input Output : Type}
    (input : Option Input) (w0 w : Waker)
    (s1 : InnerState Input Output)
    (h : Awaitable.install_waker (.Ongoing input none : InnerState Input Output)
          w0 = some (false, s1))
    (s : InnerState Input Output)
    (hpre : ∀ (i : Option Input) (w1 : Waker), s ≠ .Ongoing i (some w1)) :
    Awaitable.install_waker s1 w = none ∧
    (Awaitable.install_waker s w).isSome = true := by
  constructor
  · simp only [Awaitable.install_waker, Option.some.injEq, Prod.mk.injEq,
      true_and] at h
    subst h
    rfl
  · cases s with
    | Done o => rfl
    | Ongoing i sw =>
      cases sw with
      | none => rfl
      | some w1 => exact absurd rfl (hpre i w1)

/-- Witness for C9 at a concrete cell. -/
theorem install_waker_twice_panics_witness :
    Awaitable.install_waker (.Ongoing (some 7) (some 1) : InnerState Nat Nat) 2 =
      none ∧
    (Awaitable.install_waker (.Ongoing (some 7) none : InnerState Nat Nat)
      3).isSome = true :=
  install_waker_twice_panics (some 7) 1 2 (.Ongoing (some 7) (some 1)) rfl
    (.Ongoing (some 7) none) (by intro i w1 hc; cases hc)

/-- C10: the double-install check only applies while `Ongoing`: `done`
replaces the whole state — discarding the stored waker and any untaken
input — with `Done v`, and `install_waker` on a `Done` cell returns
`true` without panicking, even though a waker had been installed before
completion. -/
theorem install_waker_after_done_no_panic {Input Output : Type}
    (input : Option Input) (w0 w : Waker) (v : Output) :
    Awaitable.done (.Ongoing input (some w0) : InnerState Input Output) v =
      some (some w0, .Done v) ∧
    Awaitable.install_waker (.Done v : InnerState Input Output) w =
      some (true, .Done v) :=
  ⟨rfl, rfl⟩

/-- Helper: every method call preserves "the pre-supplied input is
gone". `install_waker` leaves the input slot unchanged, `take_input`
empties it, and `done` discards the whole `Ongoing` payload. -/
theorem inputGone_applyOp {Input Output : Type}
    {op : Awaitable.CellOp Input Output} {s s' : InnerState Input Output}
    (hg : Awaitable.inputGone s) (h : Awaitable.applyOp op s = some s') :
    Awaitable.inputGone s' := by
  cases op with
  | installWaker w =>
    cases s with
    | Done o =>
      simp only [Awaitable.applyOp, Awaitable.install_waker, Option.map,
        Option.some.injEq] at h
      subst h; trivial
    | Ongoing i sw =>
      cases sw with
      | some w1 => simp [Awaitable.applyOp, Awaitable.install_waker] at h
      | none =>
        simp only [Awaitable.applyOp, Awaitable.install_waker, Option.map,
          Option.some.injEq] at h
        subst h
        cases i with
        | none => trivial
        | some x => exact hg
  | takeInput =>
    cases s with
    | Done o =>
      simp only [Awaitable.applyOp, Awaitable.take_input,
        Option.some.injEq] at h
      subst h; trivial
    | Ongoing i sw =>
      simp only [Awaitable.applyOp, Awaitable.take_input,
        Option.some.injEq] at h
      subst h; trivial
  | doneOp v =>
    cases s with
    | Done o => simp [Awaitable.applyOp, Awaitable.done] at h
    | Ongoing i sw =>
      simp only [Awaitable.applyOp, Awaitable.done, Option.map,
        Option.some.injEq] at h
      subst h; trivial

/-- Helper: running any sequence of method calls preserves "the
pre-supplied input is gone". -/
theorem inputGone_runOps {Input Output : Type}
    {ops : List (Awaitable.CellOp Input Output)}
    {s s' : InnerState Input Output}
    (hg : Awaitable.inputGone s) (h : Awaitable.runOps ops s = some s') :
    Awaitable.inputGone s' := by
  induction ops generalizing s with
  | nil =>
    simp only [Awaitable.runOps, Option.some.injEq] at h
    subst h; exact hg
  | cons op rest ih =>
    simp only [Awaitable.runOps] at h
    cases hop : Awaitable.applyOp op s with
    | none => rw [hop] at h; cases h
    | some s1 =>
      rw [hop] at h
      exact ih (inputGone_applyOp hg hop) h

/-- Helper: once the input is gone, `take_input` returns nothing. -/
theorem take_input_none_of_inputGone {Input Output : Type}
    {s : InnerState Input Output} (hg : Awaitable.inputGone s) :
    (Awaitable.take_input s).1 = none := by
  cases s with
  | Done o => rfl
  | Ongoing i sw =>
    cases i with
    | none => rfl
    | some x => exact absurd hg (by simp [Awaitable.inputGone])

/-- C5: on a cell created with a pre-supplied input, the first
`take_input` returns exactly that input; after it, no sequence of
further method calls can make `take_input` return anything again; and
`take_input` on a cell that is already `Done` returns nothing even if
the input was never taken. -/
theorem take_input_exactly_once {Input Output : Type} (v : Input)
    (ops : List (Awaitable.CellOp Input Output))
    (s' : InnerState Input Output)
    (h : Awaitable.runOps ops
        (Awaitable.take_input
          (Awaitable.new (some v) : InnerState Input Output)).2 = some s')
    (o : Output) :
    (Awaitable.take_input
        (Awaitable.new (some v) : InnerState Input Output)).1 = some v ∧
    (Awaitable.take_input s').1 = none ∧
    (Awaitable.take_input (.Done o : InnerState Input Output)).1 = none := by
  refine ⟨rfl, ?_, rfl⟩
  exact take_input_none_of_inputGone (inputGone_runOps (by trivial) h)

/-- Witness for C5 at a concrete cell and call sequence. -/
theorem take_input_exactly_once_witness :
    (Awaitable.take_input
        (Awaitable.new (some 7) : InnerState Nat Nat)).1 = some 7 ∧
    (Awaitable.take_input (InnerState.Done 5 : InnerState Nat Nat)).1 =
      none ∧
    (Awaitable.take_input (.Done 9 : InnerState Nat Nat)).1 = none :=
  take_input_exactly_once 7
    [Awaitable.CellOp.installWaker 1, Awaitable.CellOp.doneOp 5]
    (InnerState.Done 5) rfl 9

/-- C8: `done` on a cell that is already `Done` panics; no successful
method call ever replaces a `Done` state (in particular `Done` is never
replaced by `Ongoing`); and under the single-completion precondition —
the cell is still `Ongoing` — the panic branch of `done` is
unreachable. -/
theorem done_twice_panics {Input Output : Type} (o v : Output)
    (op : Awaitable.CellOp Input Output) (s' : InnerState Input Output)
    (hop : Awaitable.applyOp op (.Done o : InnerState Input Output) = some s')
    (input : Option Input) (sw : Option Waker) :
    Awaitable.done (.Done o : InnerState Input Output) v = none ∧
    s' = .Done o ∧
    (Awaitable.done (.Ongoing input sw : InnerState Input Output)
      v).isSome = true := by
  refine ⟨rfl, ?_, rfl⟩
  cases op with
  | installWaker w =>
    simp only [Awaitable.applyOp, Awaitable.install_waker, Option.map,
      Option.some.injEq] at hop
    exact hop.symm
  | takeInput =>
    simp only [Awaitable.applyOp, Awaitable.take_input,
      Option.some.injEq] at hop
    exact hop.symm
  | doneOp v1 => simp [Awaitable.applyOp, Awaitable.done] at hop

/-- Witness for C8 at a concrete cell. -/
theorem done_twice_panics_witness :
    Awaitable.done (.Done 1 : InnerState Nat Nat) 2 = none ∧
    (InnerState.Done 1 : InnerState Nat Nat) = .Done 1 ∧
    (Awaitable.done (.Ongoing (some 3) none : InnerState Nat Nat)
      2).isSome = true :=
  done_twice_panics 1 2 Awaitable.CellOp.takeInput (InnerState.Done 1) rfl
    (some 3) none

/-- C7: `done v` on a cell with an installed waker hands that waker back
for waking with the state already replaced by `Done v` (so the stored
value is durably retrievable), and in the effect trace of `done` the
wake happens strictly after the state replacement, after the lock
release and after dropping `done`'s own handle. -/
theorem done_wakes_after_cleanup {Input Output : Type}
    (input : Option Input) (w0 : Waker) (v : Output) :
    Awaitable.done (.Ongoing input (some w0) : InnerState Input Output) v =
      some (some w0, .Done v) ∧
    Awaitable.get_value (.Done v : InnerState Input Output) = some v ∧
    Awaitable.DoneEvent.wakerWoken ∈ Awaitable.doneEvents true ∧
    (Awaitable.doneEvents true).indexOf .stateReplaced <
      (Awaitable.doneEvents true).indexOf .wakerWoken ∧
    (Awaitable.doneEvents true).indexOf .lockReleased <
      (Awaitable.doneEvents true).indexOf .wakerWoken ∧
    (Awaitable.doneEvents true).indexOf .selfDropped <
      (Awaitable.doneEvents true).indexOf .wakerWoken :=
  ⟨rfl, rfl, by decide, by decide, by decide, by decide⟩

/-- Helper: the counting invariant of the signaling protocol, in the
overflow-free form `signals = returned + requests_sent`. -/
theorem signal_inv_aux {s : SignalState} (h : SignalReachable s) :
    s.signals = s.returned + s.requests_sent := by
  induction h with
  | init => rfl
  | step hr hstep ih =>
    cases hstep with
    | notify => simp only []; omega
    | waitSwapPos hpos => simp only []; omega
    | waitSwapZero hz => exact ih

/-- C1: in every reachable state of the signaling protocol the counter
equals the number of `notify_new_packet_event` calls minus the sum of
all counts returned by `wait_for_new_request`, and that sum never
exceeds the number of calls — no signal is ever lost. -/
theorem no_signal_lost (s : SignalState) (h : SignalReachable s) :
    s.requests_sent = s.signals - s.returned ∧ s.returned ≤ s.signals := by
  have hinv := signal_inv_aux h
  omega

/-- Witness for C1 at a concrete reachable state: two notifications,
then one wait that returns both. -/
theorem no_signal_lost_witness :
    (⟨0, 2, 2⟩ : SignalState).requests_sent =
      (⟨0, 2, 2⟩ : SignalState).signals -
        (⟨0, 2, 2⟩ : SignalState).returned ∧
    (⟨0, 2, 2⟩ : SignalState).returned ≤
      (⟨0, 2, 2⟩ : SignalState).signals :=
  no_signal_lost ⟨0, 2, 2⟩
    (SignalReachable.step
      (SignalReachable.step
        (SignalReachable.step SignalReachable.init
          (SignalStep.notify ⟨0, 0, 0⟩))
        (SignalStep.notify ⟨1, 1, 0⟩))
      (SignalStep.waitSwapPos ⟨2, 2, 0⟩ (by decide)))

/-- Helper: the `wait_for_new_request` loop only ever breaks with the
positive counter value it swapped out. -/
theorem wait_for_new_request_pos_aux :
    ∀ (wakeups : List Nat) (cnt n : Nat),
      wait_for_new_request cnt wakeups = some n → 0 < n := by
  intro wakeups
  induction wakeups with
  | nil =>
    intro cnt n h
    unfold wait_for_new_request at h
    by_cases hc : 0 < cnt
    · rw [if_pos hc] at h; cases h; exact hc
    · rw [if_neg hc] at h; cases h
  | cons c rest ih =>
    intro cnt n h
    unfold wait_for_new_request at h
    by_cases hc : 0 < cnt
    · rw [if_pos hc] at h; cases h; exact hc
    · rw [if_neg hc] at h; exact ih c n h

/-- C4: `wait_for_new_request` never returns 0 — whenever the loop
returns `n`, `n` is strictly positive — and the returning swap leaves
the counter at zero (before any later concurrent increments). -/
theorem wait_returns_positive_and_resets (cnt n : Nat) (wakeups : List Nat)
    (h : wait_for_new_request cnt wakeups = some n)
    (s s' : SignalState)
    (hs : SignalStep s (SignalEvent.waitReturn n) s') :
    0 < n ∧ s'.requests_sent = 0 := by
  refine ⟨wait_for_new_request_pos_aux wakeups cnt n h, ?_⟩
  cases hs
  rfl

/-- Witness for C4: a wait that finds the counter at 0, gets notified,
re-checks and returns 3, resetting the counter. -/
theorem wait_returns_positive_and_resets_witness :
    0 < 3 ∧ (⟨0, 3, 3⟩ : SignalState).requests_sent = 0 :=
  wait_returns_positive_and_resets 0 3 [3] rfl ⟨3, 3, 0⟩ ⟨0, 3, 3⟩
    (SignalStep.waitSwapPos ⟨3, 3, 0⟩ (by decide))

/-- C6: if the server replies with a version different from
`SSH2_FILEXFER_VERSION`, `connect` returns the version-mismatch error
and no handle pair; and a handle pair is returned only when the hello
send succeeded and the server's version matched exactly. -/
theorem connect_rejects_version_mismatch (v : Nat)
    (hello_result : Except ConnError Unit) (reply : Option Nat)
    (p : WriteEnd × ReadEnd)
    (hv : v ≠ SSH2_FILEXFER_VERSION)
    (hok : connect hello_result reply = Except.ok p) :
    connect hello_result (some v) =
      Except.error (ConnError.versionMismatch SSH2_FILEXFER_VERSION v) ∧
    hello_result = Except.ok () ∧ reply = some SSH2_FILEXFER_VERSION := by
  cases hello_result with
  | error e => simp [connect] at hok
  | ok u =>
    cases u
    refine ⟨?_, rfl, ?_⟩
    · simp [connect, receive_server_version, hv]
    · cases reply with
      | none => simp [connect, receive_server_version] at hok
      | some r =>
        by_cases hr : r = SSH2_FILEXFER_VERSION
        · subst hr; rfl
        · simp [connect, receive_server_version, hr] at hok

/-- Witness for C6: the server replies with version 4 while the client
announced version 3. -/
theorem connect_rejects_version_mismatch_witness :
    connect (Except.ok ()) (some 4) =
      Except.error (ConnError.versionMismatch SSH2_FILEXFER_VERSION 4) ∧
    (Except.ok () : Except ConnError Unit) = Except.ok () ∧
    (some 3 : Option Nat) = some SSH2_FILEXFER_VERSION :=
  connect_rejects_version_mismatch 4 (Except.ok ()) (some 3) (⟨⟨0⟩⟩, ⟨⟨0⟩⟩)
    (by decide) rfl

end SftpClient
